import Mathlib

/-!
Verification of the core of the LLD currency converter
(`src/main.cpp`): the `StaticRateProvider` rate-resolution logic and the
`CurrencyConverter` conversion logic.

Modelling choices:
* C++ `double` amounts and rates are modelled as exact rationals `ℚ`;
  every claim under study is about control flow and results that are
  single arithmetic operations on stored values, so exactness is faithful.
* `std::map<std::string, double>` is modelled as an association list with
  insert-or-assign (`mapInsert`) and lookup (`mapFind`) mirroring
  `operator[]` assignment and `find`.
* A thrown `std::runtime_error` is modelled as an `Except` error carrying
  the exception's message string (`Err`); the three messages appearing in
  the core are named constants below.
-/

/-- A thrown `std::runtime_error`, identified by its `what()` message. -/
structure Err where
  what : String
deriving DecidableEq, Repr

/-- Message of the exception thrown by `StaticRateProvider::getRate`
when a code is missing from the rate table (main.cpp line 91). -/
def unsupportedCurrencyMsg : String := "Unsupported currency code"

/-- Message of the exception thrown by `StaticRateProvider::setCustomRate`
on a non-positive rate (main.cpp line 103). -/
def invalidRateMsg : String := "Rate must be positive"

/-- Message of the exception thrown by `CurrencyConverter::convert`
on a negative amount (main.cpp line 120). -/
def negativeAmountMsg : String := "Amount cannot be negative"

/-- `std::map` insert-or-assign (`m[k] = v`). -/
def mapInsert (m : List (String × ℚ)) (k : String) (v : ℚ) : List (String × ℚ) :=
  match m with
  | [] => [(k, v)]
  | (k', v') :: rest => if k' = k then (k, v) :: rest else (k', v') :: mapInsert rest k v

/-- `std::map` lookup (`m.find(k)`), `none` when the key is absent. -/
def mapFind (m : List (String × ℚ)) (k : String) : Option ℚ :=
  match m with
  | [] => none
  | (k', v) :: rest => if k' = k then some v else mapFind rest k

/-- State of a `StaticRateProvider` (main.cpp lines 43-46). -/
structure StaticRateProvider where
  baseCurrencyCode : String
  baseRates : List (String × ℚ)
  customRates : List (String × ℚ)
deriving DecidableEq, Repr

/-- `StaticRateProvider::makeKey` (main.cpp lines 48-50). -/
def makeKey (f t : String) : String := f ++ "->" ++ t

/-- The `StaticRateProvider` constructor (main.cpp lines 53-63): pins the
base at 1.0 then seeds the six demo codes, in source order. -/
def initProvider (baseCode : String) : StaticRateProvider :=
  { baseCurrencyCode := baseCode
    baseRates :=
      mapInsert (mapInsert (mapInsert (mapInsert (mapInsert (mapInsert
        (mapInsert [] baseCode 1)
        "EUR" (92/100))
        "INR" (831/10))
        "GBP" (79/100))
        "JPY" (283/2))
        "AUD" (147/100))
        "CAD" (134/100)
    customRates := [] }

/-- `StaticRateProvider::registerCurrency` (main.cpp lines 65-67). -/
def StaticRateProvider.registerCurrency (p : StaticRateProvider)
    (code : String) (rateVsBase : ℚ) : StaticRateProvider :=
  { p with baseRates := mapInsert p.baseRates code rateVsBase }

/-- `StaticRateProvider::getSupportedCodes` (main.cpp lines 69-76). -/
def StaticRateProvider.getSupportedCodes (p : StaticRateProvider) : List String :=
  p.baseRates.map Prod.fst

/-- `StaticRateProvider::getRate` (main.cpp lines 78-99). -/
def StaticRateProvider.getRate (p : StaticRateProvider)
    (f t : String) : Except Err ℚ :=
  if f = t then .ok 1
  else
    match mapFind p.customRates (makeKey f t) with
    | some r => .ok r
    | none =>
      match mapFind p.baseRates f, mapFind p.baseRates t with
      | some rateFrom, some rateTo => .ok (rateTo / rateFrom)
      | _, _ => .error ⟨unsupportedCurrencyMsg⟩

/-- `StaticRateProvider::setCustomRate` (main.cpp lines 101-106): the
successful result is the updated state. -/
def StaticRateProvider.setCustomRate (p : StaticRateProvider)
    (f t : String) (rate : ℚ) : Except Err StaticRateProvider :=
  if rate ≤ 0 then .error ⟨invalidRateMsg⟩
  else .ok { p with customRates := mapInsert p.customRates (makeKey f t) rate }

/-- `CurrencyConverter` (main.cpp lines 111-125): holds a reference to an
`ExchangeRateProvider`, modelled by its `getRate` behaviour. -/
structure CurrencyConverter where
  rateProvider : String → String → Except Err ℚ

/-- `CurrencyConverter::convert` (main.cpp lines 118-124). -/
def CurrencyConverter.convert (c : CurrencyConverter)
    (f t : String) (amount : ℚ) : Except Err ℚ :=
  if amount < 0 then .error ⟨negativeAmountMsg⟩
  else
    match c.rateProvider f t with
    | .ok rate => .ok (amount * rate)
    | .error e => .error e

/-- One call on a `StaticRateProvider`, for reasoning about reachable
states. -/
inductive Op where
  | register (code : String) (rate : ℚ)
  | setCustom (f t : String) (rate : ℚ)
  | getR (f t : String)
  | getCodes
deriving DecidableEq, Repr

/-- The state after one call: `getRate` and `getSupportedCodes` are
`const`; `setCustomRate` throws before mutating when the rate is
non-positive, so the state is unchanged in that case. -/
def applyOp (p : StaticRateProvider) : Op → StaticRateProvider
  | Op.register code rate => p.registerCurrency code rate
  | Op.setCustom f t rate =>
      match p.setCustomRate f t rate with
      | .ok p' => p'
      | .error _ => p
  | Op.getR _ _ => p
  | Op.getCodes => p

/-- The state after a sequence of calls. -/
def run (p : StaticRateProvider) : List Op → StaticRateProvider
  | [] => p
  | op :: rest => run (applyOp p op) rest

/-- `true` iff the call re-registers the base code at a rate other
than 1. -/
def touchesBase (base : String) : Op → Bool
  | Op.register code rate => decide (code = base ∧ rate ≠ 1)
  | _ => false

-- Basic map lemmas

theorem mapFind_mapInsert_self (m : List (String × ℚ)) (k : String) (v : ℚ) :
    mapFind (mapInsert m k v) k = some v := by
  induction m with
  | nil => simp [mapInsert, mapFind]
  | cons hd tl ih =>
    obtain ⟨k', v'⟩ := hd
    by_cases h : k' = k
    · simp [mapInsert, mapFind, h]
    · simp [mapInsert, mapFind, h, ih]

theorem mapFind_mapInsert_ne (m : List (String × ℚ)) (k k' : String) (v : ℚ)
    (h : k' ≠ k) : mapFind (mapInsert m k v) k' = mapFind m k' := by
  have h' : ¬k = k' := fun hh => h hh.symm
  induction m with
  | nil => simp [mapInsert, mapFind, h']
  | cons hd tl ih =>
    obtain ⟨k₀, v₀⟩ := hd
    by_cases h₀ : k₀ = k
    · subst h₀
      simp [mapInsert, mapFind, h']
    · by_cases h₁ : k₀ = k'
      · simp [mapInsert, mapFind, h₀, h₁, h]
      · simp [mapInsert, mapFind, h₀, h₁, ih]

-- Claim theorems

/-- Claim C1: for every currency code `X` and every provider state
(including states where `X` is not in the rate table and states where an
override for `(X,X)` has been set to a value other than 1), `getRate X X`
returns exactly 1 and does not fail. -/
theorem getRate_identity (p : StaticRateProvider) (X : String) :
    p.getRate X X = Except.ok 1 := by
  simp [StaticRateProvider.getRate]

/-- Claim C3: for `f ≠ t`, when no override entry exists for the ordered
pair `(f, t)` and both codes are present in the rate table, `getRate f t`
returns `baseRates[t] / baseRates[f]`. -/
theorem getRate_triangulation (p : StaticRateProvider) (f t : String)
    (rateFrom rateTo : ℚ) (hne : f ≠ t)
    (hcustom : mapFind p.customRates (makeKey f t) = none)
    (hf : mapFind p.baseRates f = some rateFrom)
    (ht : mapFind p.baseRates t = some rateTo) :
    p.getRate f t = Except.ok (rateTo / rateFrom) := by
  simp [StaticRateProvider.getRate, hne, hcustom, hf, ht]

/-- Claim C3 witness: in the seeded provider, `getRate "EUR" "INR"`
triangulates through the base. -/
theorem getRate_triangulation_witness :
    ("EUR" : String) ≠ "INR" ∧
    mapFind (initProvider "USD").customRates (makeKey "EUR" "INR") = none ∧
    mapFind (initProvider "USD").baseRates "EUR" = some (92/100) ∧
    mapFind (initProvider "USD").baseRates "INR" = some (831/10) ∧
    (initProvider "USD").getRate "EUR" "INR" = Except.ok ((831/10) / (92/100)) :=
  ⟨by decide, by rfl, by rfl, by rfl,
    getRate_triangulation (initProvider "USD") "EUR" "INR" (92/100) (831/10)
      (by decide) (by rfl) (by rfl) (by rfl)⟩

/-- Claim C4 counterexample: the unsupported-currency failure carries the
fixed message "Unsupported currency code"; two calls with different
unknown codes produce identical errors, so the error does not name which
code(s) are unknown. -/
theorem unsupported_message_cex :
    (initProvider "USD").getRate "ZZZ" "USD" = (initProvider "USD").getRate "QQQ" "USD" ∧
    (initProvider "USD").getRate "ZZZ" "USD" =
      Except.error ⟨"Unsupported currency code"⟩ := by
  constructor <;> rfl

/-- Claim C4 (amended): for `f ≠ t`, when no override entry exists for the
ordered pair `(f, t)` and at least one of the two codes is absent from the
rate table, `getRate f t` fails with the unsupported-currency error, whose
fixed message does not name the unknown code(s). -/
theorem getRate_unsupported (p : StaticRateProvider) (f t : String)
    (hne : f ≠ t) (hcustom : mapFind p.customRates (makeKey f t) = none)
    (habs : mapFind p.baseRates f = none ∨ mapFind p.baseRates t = none) :
    p.getRate f t = Except.error ⟨unsupportedCurrencyMsg⟩ := by
  rcases habs with h | h
  · simp [StaticRateProvider.getRate, hne, hcustom, h]
  · cases hf : mapFind p.baseRates f <;>
      simp [StaticRateProvider.getRate, hne, hcustom, h, hf]

/-- Claim C4 witness: `getRate "ZZZ" "USD"` fails on the seeded
provider. -/
theorem getRate_unsupported_witness :
    ("ZZZ" : String) ≠ "USD" ∧
    mapFind (initProvider "USD").customRates (makeKey "ZZZ" "USD") = none ∧
    mapFind (initProvider "USD").baseRates "ZZZ" = none ∧
    (initProvider "USD").getRate "ZZZ" "USD" =
      Except.error ⟨unsupportedCurrencyMsg⟩ :=
  ⟨by decide, by decide, by decide,
    getRate_unsupported (initProvider "USD") "ZZZ" "USD"
      (by decide) (by decide) (Or.inl (by decide))⟩

/-- Claim C5: `setCustomRate A B r` fails with the invalid-rate error iff
`r ≤ 0`; on failure the provider state (in particular the override table)
is completely unchanged; when `0 < r` the call succeeds and
inserts-or-overwrites the override entry for `(A, B)`. -/
theorem setCustomRate_spec (p : StaticRateProvider) (A B : String) (r : ℚ) :
    (p.setCustomRate A B r = Except.error ⟨invalidRateMsg⟩ ↔ r ≤ 0) ∧
    (r ≤ 0 → applyOp p (Op.setCustom A B r) = p) ∧
    (0 < r → p.setCustomRate A B r =
      Except.ok { p with customRates := mapInsert p.customRates (makeKey A B) r }) := by
  refine ⟨⟨?_, ?_⟩, ?_, ?_⟩
  · intro h
    by_contra hr
    push_neg at hr
    simp [StaticRateProvider.setCustomRate, not_le.mpr hr] at h
  · intro h
    simp [StaticRateProvider.setCustomRate, h]
  · intro h
    simp [applyOp, StaticRateProvider.setCustomRate, h]
  · intro h
    simp [StaticRateProvider.setCustomRate, not_le.mpr h]

/-- Claim C5 witness: a zero rate is rejected leaving the state unchanged,
and a positive rate is stored. -/
theorem setCustomRate_spec_witness :
    ((initProvider "USD").setCustomRate "EUR" "JPY" 0 =
      Except.error ⟨invalidRateMsg⟩) ∧
    (applyOp (initProvider "USD") (Op.setCustom "EUR" "JPY" 0) = initProvider "USD") ∧
    ((initProvider "USD").setCustomRate "EUR" "JPY" 2 =
      Except.ok { initProvider "USD" with
        customRates := mapInsert (initProvider "USD").customRates (makeKey "EUR" "JPY") 2 }) :=
  ⟨(setCustomRate_spec (initProvider "USD") "EUR" "JPY" 0).1.mpr (by norm_num),
   (setCustomRate_spec (initProvider "USD") "EUR" "JPY" 0).2.1 (by norm_num),
   (setCustomRate_spec (initProvider "USD") "EUR" "JPY" 2).2.2 (by norm_num)⟩

/-- Claim C6: `setCustomRate` does not validate its codes — for `A ≠ B`
both absent from the rate table and any `0 < r`, the call succeeds, and
`getRate A B` then succeeds with `r` via the override instead of failing
with the unsupported-currency error. -/
theorem setCustomRate_unknown_codes (p : StaticRateProvider) (A B : String) (r : ℚ)
    (hne : A ≠ B) (hr : 0 < r)
    (hA : mapFind p.baseRates A = none) (hB : mapFind p.baseRates B = none) :
    ∃ p', p.setCustomRate A B r = Except.ok p' ∧ p'.getRate A B = Except.ok r := by
  refine ⟨{ p with customRates := mapInsert p.customRates (makeKey A B) r }, ?_, ?_⟩
  · simp [StaticRateProvider.setCustomRate, not_le.mpr hr]
  · simp [StaticRateProvider.getRate, hne, mapFind_mapInsert_self]

/-- Claim C6 witness: an override between two unregistered codes. -/
theorem setCustomRate_unknown_codes_witness :
    ("ZZZ" : String) ≠ "QQQ" ∧ (0:ℚ) < 3 ∧
    mapFind (initProvider "USD").baseRates "ZZZ" = none ∧
    mapFind (initProvider "USD").baseRates "QQQ" = none ∧
    ∃ p', (initProvider "USD").setCustomRate "ZZZ" "QQQ" 3 = Except.ok p' ∧
      p'.getRate "ZZZ" "QQQ" = Except.ok 3 :=
  ⟨by decide, by norm_num, by decide, by decide,
    setCustomRate_unknown_codes (initProvider "USD") "ZZZ" "QQQ" 3
      (by decide) (by norm_num) (by decide) (by decide)⟩

/-- Claim C7: `convert A B amount` fails with the negative-amount error
when `amount < 0`; otherwise it returns `amount * rate` for the rate the
provider yields, propagates any provider error unchanged, and in
particular `convert A B 0` returns exactly 0 whenever the provider
succeeds. -/
theorem convert_spec (c : CurrencyConverter) (A B : String) (amount : ℚ) :
    (amount < 0 → c.convert A B amount = Except.error ⟨negativeAmountMsg⟩) ∧
    (0 ≤ amount → ∀ r, c.rateProvider A B = Except.ok r →
      c.convert A B amount = Except.ok (amount * r)) ∧
    (0 ≤ amount → ∀ e, c.rateProvider A B = Except.error e →
      c.convert A B amount = Except.error e) ∧
    (∀ r, c.rateProvider A B = Except.ok r → c.convert A B 0 = Except.ok 0) := by
  refine ⟨?_, ?_, ?_, ?_⟩
  · intro h
    simp [CurrencyConverter.convert, h]
  · intro h r hr
    simp [CurrencyConverter.convert, not_lt.mpr h, hr]
  · intro h e he
    simp [CurrencyConverter.convert, not_lt.mpr h, he]
  · intro r hr
    simp [CurrencyConverter.convert, hr]

/-- Claim C7 witness: the four behaviours at concrete inputs on the
seeded provider. -/
theorem convert_spec_witness :
    ((CurrencyConverter.mk (initProvider "USD").getRate).convert "USD" "EUR" (-1) =
      Except.error ⟨negativeAmountMsg⟩) ∧
    ((CurrencyConverter.mk (initProvider "USD").getRate).convert "USD" "EUR" 100 =
      Except.ok (100 * (92/100 / 1))) ∧
    ((CurrencyConverter.mk (initProvider "USD").getRate).convert "ZZZ" "USD" 1 =
      Except.error ⟨unsupportedCurrencyMsg⟩) ∧
    ((CurrencyConverter.mk (initProvider "USD").getRate).convert "USD" "EUR" 0 =
      Except.ok 0) :=
  ⟨(convert_spec (CurrencyConverter.mk (initProvider "USD").getRate) "USD" "EUR" (-1)).1
      (by norm_num),
   (convert_spec (CurrencyConverter.mk (initProvider "USD").getRate) "USD" "EUR" 100).2.1
      (by norm_num) (92/100 / 1) (by rfl),
   (convert_spec (CurrencyConverter.mk (initProvider "USD").getRate) "ZZZ" "USD" 1).2.2.1
      (by norm_num) ⟨unsupportedCurrencyMsg⟩ (by rfl),
   (convert_spec (CurrencyConverter.mk (initProvider "USD").getRate) "USD" "EUR" 0).2.2.2
      (92/100 / 1) (by rfl)⟩

/-- Claim C10: `convert` checks the amount before consulting the
provider — for any negative amount it fails with the negative-amount
error for every provider, and its result does not depend on the provider
at all (so `getRate` is never consulted), even when the codes are
unsupported. -/
theorem convert_checks_amount_first (c₁ c₂ : CurrencyConverter) (A B : String)
    (amount : ℚ) (h : amount < 0) :
    c₁.convert A B amount = Except.error ⟨negativeAmountMsg⟩ ∧
    c₁.convert A B amount = c₂.convert A B amount := by
  constructor <;> simp [CurrencyConverter.convert, h]

/-- Claim C10 witness: a negative amount with unsupported codes fails the
same way under the real provider and under an arbitrary other provider. -/
theorem convert_checks_amount_first_witness :
    (CurrencyConverter.mk (initProvider "USD").getRate).convert "ZZZ" "QQQ" (-1) =
      Except.error ⟨negativeAmountMsg⟩ ∧
    (CurrencyConverter.mk (initProvider "USD").getRate).convert "ZZZ" "QQQ" (-1) =
      (CurrencyConverter.mk fun _ _ => Except.ok 999).convert "ZZZ" "QQQ" (-1) :=
  convert_checks_amount_first (CurrencyConverter.mk (initProvider "USD").getRate)
    (CurrencyConverter.mk fun _ _ => Except.ok 999) "ZZZ" "QQQ" (-1) (by norm_num)

/-- Claim C9: override keys are the string `f ++ "->" ++ t`, so distinct
ordered pairs can alias: in any state, setting a custom rate for the pair
`("A->B", "C")` makes `getRate "A" "B->C"` return that rate, although
`("A", "B->C")` is a different pair. -/
theorem makeKey_aliasing (p : StaticRateProvider) (r : ℚ) (hr : 0 < r) :
    ∃ p', p.setCustomRate "A->B" "C" r = Except.ok p' ∧
      p'.getRate "A" "B->C" = Except.ok r ∧
      (("A", "B->C") : String × String) ≠ ("A->B", "C") := by
  refine ⟨{ p with customRates := mapInsert p.customRates (makeKey "A->B" "C") r },
    ?_, ?_, by decide⟩
  · simp [StaticRateProvider.setCustomRate, not_le.mpr hr]
  · have hne : ("A" : String) ≠ "B->C" := by decide
    have hkey : makeKey "A" "B->C" = makeKey "A->B" "C" := by decide
    simp [StaticRateProvider.getRate, hne, hkey, mapFind_mapInsert_self]

/-- Claim C9 witness: the aliasing at rate 5 on the seeded provider. -/
theorem makeKey_aliasing_witness :
    (0:ℚ) < 5 ∧
    ∃ p', (initProvider "USD").setCustomRate "A->B" "C" 5 = Except.ok p' ∧
      p'.getRate "A" "B->C" = Except.ok 5 ∧
      (("A", "B->C") : String × String) ≠ ("A->B", "C") :=
  ⟨by norm_num, makeKey_aliasing (initProvider "USD") 5 (by norm_num)⟩

/-- Claim C2 counterexample: with `A = "X"` and `B = "X->X"` (distinct
codes) the stored keys coincide (`"X->X->X"` both ways), so a single
`setCustomRate A B 5` also changes `getRate B A`: before the call it
failed with the unsupported-currency error, afterwards it returns 5,
although no override for `(B, A)` was separately set. -/
theorem override_back_pair_cex :
    ("X" : String) ≠ "X->X" ∧ (0:ℚ) < 5 ∧
    (initProvider "USD").getRate "X->X" "X" =
      Except.error ⟨unsupportedCurrencyMsg⟩ ∧
    ((initProvider "USD").setCustomRate "X" "X->X" 5).map
      (fun p' => p'.getRate "X->X" "X") = Except.ok (Except.ok 5) :=
  ⟨by decide, by norm_num, by rfl, by rfl⟩

/-- Claim C2 (amended): for `A ≠ B` and `0 < r`, provided the stored keys
`A ++ "->" ++ B` and `B ++ "->" ++ A` differ (true in particular whenever
neither code contains the substring "->"), after `setCustomRate A B r`
succeeds, `getRate A B` returns exactly `r` regardless of what
triangulation would have produced, and `getRate B A` returns exactly what
it returned before the call. -/
theorem override_precedence (p : StaticRateProvider) (A B : String) (r : ℚ)
    (hne : A ≠ B) (hr : 0 < r) (hkey : makeKey A B ≠ makeKey B A) :
    ∃ p', p.setCustomRate A B r = Except.ok p' ∧
      p'.getRate A B = Except.ok r ∧
      p'.getRate B A = p.getRate B A := by
  refine ⟨{ p with customRates := mapInsert p.customRates (makeKey A B) r },
    ?_, ?_, ?_⟩
  · simp [StaticRateProvider.setCustomRate, not_le.mpr hr]
  · simp [StaticRateProvider.getRate, hne, mapFind_mapInsert_self]
  · simp only [StaticRateProvider.getRate]
    rw [mapFind_mapInsert_ne p.customRates (makeKey A B) (makeKey B A) r (Ne.symm hkey)]

/-- Claim C2 witness: overriding USD→EUR at 1/2 leaves EUR→USD exactly as
before. -/
theorem override_precedence_witness :
    ("USD" : String) ≠ "EUR" ∧ (0:ℚ) < 1/2 ∧
    makeKey "USD" "EUR" ≠ makeKey "EUR" "USD" ∧
    ∃ p', (initProvider "USD").setCustomRate "USD" "EUR" (1/2) = Except.ok p' ∧
      p'.getRate "USD" "EUR" = Except.ok (1/2) ∧
      p'.getRate "EUR" "USD" = (initProvider "USD").getRate "EUR" "USD" :=
  ⟨by decide, by norm_num, by decide,
    override_precedence (initProvider "USD") "USD" "EUR" (1/2)
      (by decide) (by norm_num) (by decide)⟩

/-- Claim C8 counterexample: the invariant "the base maps to exactly 1"
is not preserved by all call sequences — `registerCurrency "USD" 2` on
the default provider overwrites the base entry with 2; moreover a
provider constructed with base "EUR" has its base entry overwritten to
92/100 by the seed data already in the constructor. -/
theorem base_rate_invariant_cex :
    mapFind (run (initProvider "USD") [Op.register "USD" 2]).baseRates "USD" =
      some 2 ∧
    (2:ℚ) ≠ 1 ∧
    mapFind (initProvider "EUR").baseRates "EUR" = some (92/100) ∧
    ((92:ℚ)/100) ≠ 1 :=
  ⟨by rfl, by norm_num, by rfl, by norm_num⟩

/-- Helper for the base-rate invariant: one call preserves the base
entry as long as it is not a re-registration of the base at a different
rate. -/
theorem applyOp_preserves_base (base : String) (p : StaticRateProvider) (op : Op)
    (hp : mapFind p.baseRates base = some 1)
    (hop : touchesBase base op = false) :
    mapFind (applyOp p op).baseRates base = some 1 := by
  cases op with
  | register code rate =>
    by_cases hc : code = base
    · subst hc
      have h1 : ¬(code = code ∧ rate ≠ 1) := by simpa [touchesBase] using hop
      have hrate : rate = 1 := by
        by_contra hne
        exact h1 ⟨rfl, hne⟩
      subst hrate
      simp [applyOp, StaticRateProvider.registerCurrency, mapFind_mapInsert_self]
    · have hbc : base ≠ code := fun hh => hc hh.symm
      simpa [applyOp, StaticRateProvider.registerCurrency,
        mapFind_mapInsert_ne p.baseRates code base rate hbc] using hp
  | setCustom f t rate =>
    by_cases hrate : rate ≤ 0
    · simpa [applyOp, StaticRateProvider.setCustomRate, hrate] using hp
    · simpa [applyOp, StaticRateProvider.setCustomRate, hrate] using hp
  | getR f t => simpa [applyOp] using hp
  | getCodes => simpa [applyOp] using hp

/-- Helper for the base-rate invariant: sequences of calls preserve the
base entry. -/
theorem run_preserves_base (base : String) (p : StaticRateProvider) (ops : List Op)
    (hp : mapFind p.baseRates base = some 1)
    (h : ∀ op ∈ ops, touchesBase base op = false) :
    mapFind (run p ops).baseRates base = some 1 := by
  induction ops generalizing p with
  | nil => simpa [run] using hp
  | cons op rest ih =>
    have hop := h op (List.mem_cons_self op rest)
    have hrest : ∀ o ∈ rest, touchesBase base o = false :=
      fun o ho => h o (List.mem_cons_of_mem op ho)
    exact ih (applyOp p op) (applyOp_preserves_base base p op hp hop) hrest

/-- Claim C8 (amended): for the provider constructed with the default
base "USD", in every state reachable by a sequence of `registerCurrency`,
`setCustomRate`, `getRate` and `getSupportedCodes` calls in which
`registerCurrency` is never invoked with the base code "USD" and a rate
other than 1, the rate table maps "USD" to exactly 1. -/
theorem base_rate_invariant (ops : List Op)
    (h : ∀ op ∈ ops, touchesBase "USD" op = false) :
    mapFind (run (initProvider "USD") ops).baseRates "USD" = some 1 :=
  run_preserves_base "USD" (initProvider "USD") ops (by rfl) h

/-- Claim C8 witness: a mixed call sequence that re-registers other
codes, sets overrides and reads rates keeps the base at 1. -/
theorem base_rate_invariant_witness :
    mapFind (run (initProvider "USD")
      [Op.register "EUR" 2, Op.setCustom "USD" "EUR" 3,
       Op.setCustom "USD" "EUR" 0, Op.getR "ZZZ" "USD",
       Op.getCodes]).baseRates "USD" = some 1 :=
  base_rate_invariant
    [Op.register "EUR" 2, Op.setCustom "USD" "EUR" 3,
     Op.setCustom "USD" "EUR" 0, Op.getR "ZZZ" "USD", Op.getCodes]
    (by intro op hop
        fin_cases hop <;> simp [touchesBase])
